import Mathlib

/-!
Shallow embedding of the broken-link checker core
(`packages/synthetics-sdk-broken-links/src/navigation_func.ts` and
`link_utils.ts`, with the wire enums from
`packages/synthetics-sdk-api/proto/synthetic_response.proto`).

Strings of the TypeScript source are modelled as `List Char`; JavaScript
numbers holding HTTP status codes are modelled as `Int` (`Math.floor` of an
integer quotient is `Int.fdiv`); ISO-8601 timestamps are modelled as `Nat`
milliseconds since the epoch (`Date.toISOString` is injective on the
millisecond clock value, so equality of the strings is equality of the
numbers).  Asynchronous effects (the puppeteer fetch of one link, the random
keys of the shuffle, the wall clock) enter the definitions as explicit
functional parameters.
-/

namespace SyntheticsSdk

/-- HTTP status class enum from `synthetic_response.proto`
(`ResponseStatusCode.StatusClass`).  `UNRECOGNIZED` is the extra variant that
`ts-proto` code generation adds for out-of-range wire values. -/
inductive ResponseStatusCode_StatusClass where
  | STATUS_CLASS_UNSPECIFIED
  | STATUS_CLASS_1XX
  | STATUS_CLASS_2XX
  | STATUS_CLASS_3XX
  | STATUS_CLASS_4XX
  | STATUS_CLASS_5XX
  | STATUS_CLASS_ANY
  | UNRECOGNIZED
deriving DecidableEq, Repr

/-- A status expectation: either an exact `status_value` or a `status_class`
(the `oneof status_code` of `ResponseStatusCode`; `ts-proto` represents a
`oneof` as two optional fields). -/
structure ResponseStatusCode where
  status_value : Option Int := none
  status_class : Option ResponseStatusCode_StatusClass := none
deriving DecidableEq, Repr

/-- Embedding of `checkStatusPassing` (`link_utils.ts`).  The source first
tests `typeof expected?.status_value === 'number'` and compares for equality;
otherwise it switches on `expected?.status_class`, returning the band test for
the five named classes and `false` in the `default` branch. -/
def checkStatusPassing (expected : ResponseStatusCode) (actual : Int) : Bool :=
  match expected.status_value with
  | some v => v == actual
  | none =>
    match expected.status_class with
    | some .STATUS_CLASS_1XX => decide (100 ≤ actual ∧ actual ≤ 199)
    | some .STATUS_CLASS_2XX => decide (200 ≤ actual ∧ actual ≤ 299)
    | some .STATUS_CLASS_3XX => decide (300 ≤ actual ∧ actual ≤ 399)
    | some .STATUS_CLASS_4XX => decide (400 ≤ actual ∧ actual ≤ 499)
    | some .STATUS_CLASS_5XX => decide (500 ≤ actual ∧ actual ≤ 599)
    | _ => false

/-- Mapping of a band number B ∈ {1..5} to the corresponding wire enum
variant, used to state properties uniformly over the five bands. -/
def bandClass : Nat → ResponseStatusCode_StatusClass
  | 1 => .STATUS_CLASS_1XX
  | 2 => .STATUS_CLASS_2XX
  | 3 => .STATUS_CLASS_3XX
  | 4 => .STATUS_CLASS_4XX
  | 5 => .STATUS_CLASS_5XX
  | _ => .STATUS_CLASS_UNSPECIFIED

/-- Screenshot output attached to a link result
(`BrokenLinksResultV1_SyntheticLinkResult_ScreenshotOutput`). -/
structure ScreenshotOutput where
  screenshot_file : List Char := []
  screenshot_error_type : List Char := []
  screenshot_error_message : List Char := []
deriving DecidableEq, Repr

/-- Per-link result record (`BrokenLinksResultV1_SyntheticLinkResult`).
Optional proto fields are `Option`; `status_code` is `none` when the fetch
produced no HTTP response (`undefined`/`null` in the source, both of which
fall through to the `default` branch of the aggregator's `switch`). -/
structure SyntheticLinkResult where
  link_passed : Option Bool := none
  expected_status_code : ResponseStatusCode := {}
  source_uri : List Char := []
  target_uri : List Char := []
  html_element : List Char := []
  anchor_text : List Char := []
  status_code : Option Int := none
  error_type : List Char := []
  error_message : List Char := []
  link_start_time : Nat := 0
  link_end_time : Nat := 0
  is_origin : Bool := false
  screenshot_output : ScreenshotOutput := {}
deriving DecidableEq, Repr

/-- Aggregate report (`BrokenLinksResultV1`); counts are the non-negative
integers the source initialises to `0` and only increments.  The fields the
source fills in only after `parseFollowedLinks` returns (`options`, `errors`,
`execution_data_storage_path`) are carried as-is and are irrelevant to the
counting claims. -/
structure BrokenLinksResultV1 where
  link_count : Nat := 0
  passing_link_count : Nat := 0
  failing_link_count : Nat := 0
  unreachable_count : Nat := 0
  status2xx_count : Nat := 0
  status3xx_count : Nat := 0
  status4xx_count : Nat := 0
  status5xx_count : Nat := 0
  origin_link_result : Option SyntheticLinkResult := none
  followed_link_results : List SyntheticLinkResult := []
  execution_data_storage_path : List Char := []
deriving DecidableEq, Repr

/-- Loop body of `parseFollowedLinks` (`link_utils.ts`): skip a result whose
`link_passed` is undefined; store the origin result in its dedicated field or
append to the followed list; bump `link_count`, the pass/fail counter, and the
`switch (Math.floor(link.status_code! / 100))` bucket, where the `default`
branch (including an absent status code, whose JavaScript quotient is `NaN` or
`0`) bumps `unreachable_count`. -/
def parseStep (acc : BrokenLinksResultV1) (link : SyntheticLinkResult) :
    BrokenLinksResultV1 :=
  match link.link_passed with
  | none => acc
  | some p =>
    let acc1 :=
      if link.is_origin then { acc with origin_link_result := some link }
      else { acc with followed_link_results := acc.followed_link_results ++ [link] }
    let acc2 := { acc1 with link_count := acc1.link_count + 1 }
    let acc3 :=
      if p then { acc2 with passing_link_count := acc2.passing_link_count + 1 }
      else { acc2 with failing_link_count := acc2.failing_link_count + 1 }
    match link.status_code with
    | some c =>
      if c.fdiv 100 = 2 then { acc3 with status2xx_count := acc3.status2xx_count + 1 }
      else if c.fdiv 100 = 3 then { acc3 with status3xx_count := acc3.status3xx_count + 1 }
      else if c.fdiv 100 = 4 then { acc3 with status4xx_count := acc3.status4xx_count + 1 }
      else if c.fdiv 100 = 5 then { acc3 with status5xx_count := acc3.status5xx_count + 1 }
      else { acc3 with unreachable_count := acc3.unreachable_count + 1 }
    | none => { acc3 with unreachable_count := acc3.unreachable_count + 1 }

/-- Embedding of `parseFollowedLinks` (`link_utils.ts`): a fold of the loop
body over the results, starting from the all-zero record. -/
def parseFollowedLinks (followed_links : List SyntheticLinkResult) :
    BrokenLinksResultV1 :=
  followed_links.foldl parseStep {}

/-- The five-way destination of the aggregator's `switch` for one result:
which counter the status code of a counted result lands in. -/
inductive Bucket where
  | b2xx | b3xx | b4xx | b5xx | unreachable
deriving DecidableEq, Repr

/-- Bucket selected by `switch (Math.floor(status_code / 100))` in
`parseFollowedLinks`: cases 2–5 hit the status-class counters, everything
else (1xx codes, 0xx, negative, absent) hits `unreachable_count`. -/
def statusBucket : Option Int → Bucket
  | none => .unreachable
  | some c =>
    if c.fdiv 100 = 2 then .b2xx
    else if c.fdiv 100 = 3 then .b3xx
    else if c.fdiv 100 = 4 then .b4xx
    else if c.fdiv 100 = 5 then .b5xx
    else .unreachable

/-- One `parseStep` changes `link_count` by the indicator of its per-result
predicate. -/
theorem parseStep_link_count (acc : BrokenLinksResultV1) (l : SyntheticLinkResult) :
    (parseStep acc l).link_count
      = acc.link_count +
        (if l.link_passed.isSome then 1 else 0) := by
  obtain ⟨lp, a2, a3, a4, a5, a6, sc, a8, a9, a10, a11, io, a13⟩ := l
  cases lp with
  | none => simp [parseStep]
  | some p =>
    cases sc with
    | none => cases p <;> cases io <;> simp [parseStep, statusBucket]
    | some c =>
      cases p <;> cases io <;>
        simp only [parseStep, statusBucket, Option.isSome_some] <;>
        split_ifs <;> simp_all

/-- One `parseStep` changes `passing_link_count` by the indicator of its per-result
predicate. -/
theorem parseStep_passing (acc : BrokenLinksResultV1) (l : SyntheticLinkResult) :
    (parseStep acc l).passing_link_count
      = acc.passing_link_count +
        (if l.link_passed == some true then 1 else 0) := by
  obtain ⟨lp, a2, a3, a4, a5, a6, sc, a8, a9, a10, a11, io, a13⟩ := l
  cases lp with
  | none => simp [parseStep]
  | some p =>
    cases sc with
    | none => cases p <;> cases io <;> simp [parseStep, statusBucket]
    | some c =>
      cases p <;> cases io <;>
        simp only [parseStep, statusBucket, Option.isSome_some] <;>
        split_ifs <;> simp_all

/-- One `parseStep` changes `failing_link_count` by the indicator of its per-result
predicate. -/
theorem parseStep_failing (acc : BrokenLinksResultV1) (l : SyntheticLinkResult) :
    (parseStep acc l).failing_link_count
      = acc.failing_link_count +
        (if l.link_passed == some false then 1 else 0) := by
  obtain ⟨lp, a2, a3, a4, a5, a6, sc, a8, a9, a10, a11, io, a13⟩ := l
  cases lp with
  | none => simp [parseStep]
  | some p =>
    cases sc with
    | none => cases p <;> cases io <;> simp [parseStep, statusBucket]
    | some c =>
      cases p <;> cases io <;>
        simp only [parseStep, statusBucket, Option.isSome_some] <;>
        split_ifs <;> simp_all

/-- One `parseStep` changes `status2xx_count` by the indicator of its per-result
predicate. -/
theorem parseStep_b2 (acc : BrokenLinksResultV1) (l : SyntheticLinkResult) :
    (parseStep acc l).status2xx_count
      = acc.status2xx_count +
        (if l.link_passed.isSome && (statusBucket l.status_code == Bucket.b2xx) then 1 else 0) := by
  obtain ⟨lp, a2, a3, a4, a5, a6, sc, a8, a9, a10, a11, io, a13⟩ := l
  cases lp with
  | none => simp [parseStep]
  | some p =>
    cases sc with
    | none => cases p <;> cases io <;> simp [parseStep, statusBucket]
    | some c =>
      cases p <;> cases io <;>
        simp only [parseStep, statusBucket, Option.isSome_some] <;>
        split_ifs <;> simp_all

/-- One `parseStep` changes `status3xx_count` by the indicator of its per-result
predicate. -/
theorem parseStep_b3 (acc : BrokenLinksResultV1) (l : SyntheticLinkResult) :
    (parseStep acc l).status3xx_count
      = acc.status3xx_count +
        (if l.link_passed.isSome && (statusBucket l.status_code == Bucket.b3xx) then 1 else 0) := by
  obtain ⟨lp, a2, a3, a4, a5, a6, sc, a8, a9, a10, a11, io, a13⟩ := l
  cases lp with
  | none => simp [parseStep]
  | some p =>
    cases sc with
    | none => cases p <;> cases io <;> simp [parseStep, statusBucket]
    | some c =>
      cases p <;> cases io <;>
        simp only [parseStep, statusBucket, Option.isSome_some] <;>
        split_ifs <;> simp_all

/-- One `parseStep` changes `status4xx_count` by the indicator of its per-result
predicate. -/
theorem parseStep_b4 (acc : BrokenLinksResultV1) (l : SyntheticLinkResult) :
    (parseStep acc l).status4xx_count
      = acc.status4xx_count +
        (if l.link_passed.isSome && (statusBucket l.status_code == Bucket.b4xx) then 1 else 0) := by
  obtain ⟨lp, a2, a3, a4, a5, a6, sc, a8, a9, a10, a11, io, a13⟩ := l
  cases lp with
  | none => simp [parseStep]
  | some p =>
    cases sc with
    | none => cases p <;> cases io <;> simp [parseStep, statusBucket]
    | some c =>
      cases p <;> cases io <;>
        simp only [parseStep, statusBucket, Option.isSome_some] <;>
        split_ifs <;> simp_all

/-- One `parseStep` changes `status5xx_count` by the indicator of its per-result
predicate. -/
theorem parseStep_b5 (acc : BrokenLinksResultV1) (l : SyntheticLinkResult) :
    (parseStep acc l).status5xx_count
      = acc.status5xx_count +
        (if l.link_passed.isSome && (statusBucket l.status_code == Bucket.b5xx) then 1 else 0) := by
  obtain ⟨lp, a2, a3, a4, a5, a6, sc, a8, a9, a10, a11, io, a13⟩ := l
  cases lp with
  | none => simp [parseStep]
  | some p =>
    cases sc with
    | none => cases p <;> cases io <;> simp [parseStep, statusBucket]
    | some c =>
      cases p <;> cases io <;>
        simp only [parseStep, statusBucket, Option.isSome_some] <;>
        split_ifs <;> simp_all

/-- One `parseStep` changes `unreachable_count` by the indicator of its per-result
predicate. -/
theorem parseStep_unreach (acc : BrokenLinksResultV1) (l : SyntheticLinkResult) :
    (parseStep acc l).unreachable_count
      = acc.unreachable_count +
        (if l.link_passed.isSome && (statusBucket l.status_code == Bucket.unreachable) then 1 else 0) := by
  obtain ⟨lp, a2, a3, a4, a5, a6, sc, a8, a9, a10, a11, io, a13⟩ := l
  cases lp with
  | none => simp [parseStep]
  | some p =>
    cases sc with
    | none => cases p <;> cases io <;> simp [parseStep, statusBucket]
    | some c =>
      cases p <;> cases io <;>
        simp only [parseStep, statusBucket, Option.isSome_some] <;>
        split_ifs <;> simp_all

/-- Folding `parseStep` adds, field by field, the `countP` of the per-result
predicate of that field. -/
theorem parseFold_counts (links : List SyntheticLinkResult) :
    ∀ acc : BrokenLinksResultV1,
    (links.foldl parseStep acc).link_count
        = acc.link_count + links.countP (fun l => l.link_passed.isSome)
    ∧ (links.foldl parseStep acc).passing_link_count
        = acc.passing_link_count + links.countP (fun l => l.link_passed == some true)
    ∧ (links.foldl parseStep acc).failing_link_count
        = acc.failing_link_count + links.countP (fun l => l.link_passed == some false)
    ∧ (links.foldl parseStep acc).status2xx_count
        = acc.status2xx_count + links.countP (fun l => l.link_passed.isSome && (statusBucket l.status_code == Bucket.b2xx))
    ∧ (links.foldl parseStep acc).status3xx_count
        = acc.status3xx_count + links.countP (fun l => l.link_passed.isSome && (statusBucket l.status_code == Bucket.b3xx))
    ∧ (links.foldl parseStep acc).status4xx_count
        = acc.status4xx_count + links.countP (fun l => l.link_passed.isSome && (statusBucket l.status_code == Bucket.b4xx))
    ∧ (links.foldl parseStep acc).status5xx_count
        = acc.status5xx_count + links.countP (fun l => l.link_passed.isSome && (statusBucket l.status_code == Bucket.b5xx))
    ∧ (links.foldl parseStep acc).unreachable_count
        = acc.unreachable_count + links.countP (fun l => l.link_passed.isSome && (statusBucket l.status_code == Bucket.unreachable)) := by
  induction links with
  | nil => intro acc; simp
  | cons l ls ih =>
    intro acc
    obtain ⟨h1, h2, h3, h4, h5, h6, h7, h8⟩ := ih (parseStep acc l)
    refine ⟨?_, ?_, ?_, ?_, ?_, ?_, ?_, ?_⟩ <;>
      simp only [List.foldl_cons, List.countP_cons, h1, h2, h3, h4, h5, h6, h7, h8,
        parseStep_link_count, parseStep_passing, parseStep_failing,
        parseStep_b2, parseStep_b3, parseStep_b4, parseStep_b5, parseStep_unreach] <;>
      omega

/-- With a positive divisor, JavaScript's floor division is Lean's Euclidean
division. -/
theorem fdiv100_eq (c : Int) : c.fdiv 100 = c / 100 :=
  Int.fdiv_eq_ediv c (by norm_num)

/-- Among counted results, the passing and the failing ones partition. -/
theorem countP_pass_fail (links : List SyntheticLinkResult) :
    links.countP (fun l => l.link_passed == some true)
      + links.countP (fun l => l.link_passed == some false)
      = links.countP (fun l => l.link_passed.isSome) := by
  induction links with
  | nil => simp
  | cons l ls ih =>
    simp only [List.countP_cons]
    cases hp : l.link_passed with
    | none => simp [hp]; omega
    | some p => cases p <;> simp [hp] <;> omega

/-- Among counted results, the five buckets partition. -/
theorem countP_bucket_split (links : List SyntheticLinkResult) :
    links.countP (fun l => l.link_passed.isSome && (statusBucket l.status_code == Bucket.b2xx))
      + links.countP (fun l => l.link_passed.isSome && (statusBucket l.status_code == Bucket.b3xx))
      + links.countP (fun l => l.link_passed.isSome && (statusBucket l.status_code == Bucket.b4xx))
      + links.countP (fun l => l.link_passed.isSome && (statusBucket l.status_code == Bucket.b5xx))
      + links.countP (fun l => l.link_passed.isSome && (statusBucket l.status_code == Bucket.unreachable))
      = links.countP (fun l => l.link_passed.isSome) := by
  induction links with
  | nil => simp
  | cons l ls ih =>
    simp only [List.countP_cons]
    cases hp : l.link_passed with
    | none => simp [hp]; omega
    | some p =>
      cases hb : statusBucket l.status_code <;> simp [hp, hb] <;> omega

/-- C4: for every list of results fed to `parseFollowedLinks`, the report
satisfies `passing_link_count + failing_link_count = link_count` and
`status2xx_count + status3xx_count + status4xx_count + status5xx_count +
unreachable_count = link_count`; each counted result lands in exactly one of
the five buckets (the bucket is the function `statusBucket` of its status
code, so the five `countP`s partition the counted results). -/
theorem parseFollowedLinks_totals (links : List SyntheticLinkResult) :
    (parseFollowedLinks links).passing_link_count
        + (parseFollowedLinks links).failing_link_count
      = (parseFollowedLinks links).link_count
    ∧ (parseFollowedLinks links).status2xx_count
        + (parseFollowedLinks links).status3xx_count
        + (parseFollowedLinks links).status4xx_count
        + (parseFollowedLinks links).status5xx_count
        + (parseFollowedLinks links).unreachable_count
      = (parseFollowedLinks links).link_count := by
  obtain ⟨h1, h2, h3, h4, h5, h6, h7, h8⟩ :=
    parseFold_counts links {}
  have hpf := countP_pass_fail links
  have hbs := countP_bucket_split links
  constructor
  · simp only [parseFollowedLinks, h1, h2, h3]
    simpa using hpf
  · simp only [parseFollowedLinks, h1, h4, h5, h6, h7, h8]
    simpa using hbs

/-- A result the aggregator is fed in the C5 counterexample: passing, with
the defined 1xx status code 150. -/
def link150 : SyntheticLinkResult :=
  { link_passed := some true, status_code := some 150 }

/-- C5 counterexample: a result with the defined status code 150 — inside the
1xx–5xx range — increments `unreachable_count` (there is no 1xx bucket in the
report; `switch (Math.floor(150 / 100))` falls into `default`). -/
theorem parseFollowedLinks_1xx_unreachable :
    link150.status_code = some 150
    ∧ (100 : Int) ≤ 150 ∧ (150 : Int) ≤ 599
    ∧ (parseFollowedLinks [link150]).unreachable_count = 1
    ∧ (parseFollowedLinks [link150]).status2xx_count = 0
    ∧ (parseFollowedLinks [link150]).status3xx_count = 0
    ∧ (parseFollowedLinks [link150]).status4xx_count = 0
    ∧ (parseFollowedLinks [link150]).status5xx_count = 0 := by
  refine ⟨rfl, by norm_num, by norm_num, ?_, ?_, ?_, ?_, ?_⟩ <;> rfl

/-- C5 (amended): the aggregator routes every counted result to the single
bucket `statusBucket` of its status code — the four status-class counters
each count exactly the results whose bucket they are, and
`unreachable_count` counts exactly the rest; a defined status code is routed
to a 2xx–5xx bucket iff it lies in 200–599, so a defined code in 200–599
never increments `unreachable_count`, while an absent code or one outside
200–599 (including the 1xx range) always does. -/
theorem parseFollowedLinks_bucket_routing (links : List SyntheticLinkResult) :
    ((parseFollowedLinks links).status2xx_count
        = links.countP (fun l => l.link_passed.isSome && (statusBucket l.status_code == Bucket.b2xx))
      ∧ (parseFollowedLinks links).status3xx_count
        = links.countP (fun l => l.link_passed.isSome && (statusBucket l.status_code == Bucket.b3xx))
      ∧ (parseFollowedLinks links).status4xx_count
        = links.countP (fun l => l.link_passed.isSome && (statusBucket l.status_code == Bucket.b4xx))
      ∧ (parseFollowedLinks links).status5xx_count
        = links.countP (fun l => l.link_passed.isSome && (statusBucket l.status_code == Bucket.b5xx))
      ∧ (parseFollowedLinks links).unreachable_count
        = links.countP (fun l => l.link_passed.isSome && (statusBucket l.status_code == Bucket.unreachable)))
    ∧ (∀ c : Int, 200 ≤ c → c ≤ 599 → statusBucket (some c) ≠ Bucket.unreachable)
    ∧ (∀ c : Int, c < 200 ∨ 599 < c → statusBucket (some c) = Bucket.unreachable)
    ∧ statusBucket none = Bucket.unreachable := by
  obtain ⟨h1, h2, h3, h4, h5, h6, h7, h8⟩ :=
    parseFold_counts links {}
  refine ⟨⟨?_, ?_, ?_, ?_, ?_⟩, ?_, ?_, rfl⟩
  · simpa [parseFollowedLinks] using h4
  · simpa [parseFollowedLinks] using h5
  · simpa [parseFollowedLinks] using h6
  · simpa [parseFollowedLinks] using h7
  · simpa [parseFollowedLinks] using h8
  · intro c hc1 hc2
    simp only [statusBucket, fdiv100_eq]
    split_ifs <;> simp_all <;> omega
  · intro c hc
    simp only [statusBucket, fdiv100_eq]
    split_ifs <;> simp_all <;> omega

/-- Witness for C5's amended routing statement at a concrete code. -/
theorem parseFollowedLinks_bucket_routing_witness :
    statusBucket (some 204) ≠ Bucket.unreachable :=
  (parseFollowedLinks_bucket_routing []).2.1 204 (by norm_num) (by norm_num)

/-- C3: for every class band B in {1..5} and every integer `actual`,
`checkStatusPassing` returns true iff `100*B ≤ actual ≤ 100*B + 99`; for an
exact-value expectation it returns true iff `actual` equals the expected
value (whatever the class field holds); and for an entirely unset expectation
it returns false for every `actual`. -/
theorem checkStatusPassing_spec :
    (∀ B : Nat, 1 ≤ B → B ≤ 5 → ∀ actual : Int,
      checkStatusPassing ⟨none, some (bandClass B)⟩ actual =
        decide (100 * (B : Int) ≤ actual ∧ actual ≤ 100 * (B : Int) + 99))
    ∧ (∀ v actual : Int, ∀ sc : Option ResponseStatusCode_StatusClass,
      checkStatusPassing ⟨some v, sc⟩ actual = decide (actual = v))
    ∧ (∀ actual : Int, checkStatusPassing ⟨none, none⟩ actual = false) := by
  refine ⟨?_, ?_, ?_⟩
  · intro B h1 h5 actual
    interval_cases B <;>
      simp only [checkStatusPassing, bandClass] <;>
      exact decide_eq_decide.mpr (by push_cast; omega)
  · intro v actual sc
    simp only [checkStatusPassing]
    by_cases h : v = actual
    · subst h; simp
    · have h2 : ¬ actual = v := fun hh => h hh.symm
      simp [h, h2]
  · intro actual
    rfl

/-- Witness for C3 at band 4 and a concrete status. -/
theorem checkStatusPassing_spec_witness :
    checkStatusPassing ⟨none, some (bandClass 4)⟩ 404 =
      decide (100 * (4 : Int) ≤ 404 ∧ (404 : Int) ≤ 100 * (4 : Int) + 99) :=
  checkStatusPassing_spec.1 4 (by decide) (by decide) 404

/-- C9: the matcher returns false for the `STATUS_CLASS_ANY`,
`STATUS_CLASS_UNSPECIFIED` and `UNRECOGNIZED` variants of the wire enum, for
every integer `actual`, not just when the expectation is entirely unset. -/
theorem checkStatusPassing_nonband_false (actual : Int) :
    checkStatusPassing ⟨none, some .STATUS_CLASS_ANY⟩ actual = false
    ∧ checkStatusPassing ⟨none, some .STATUS_CLASS_UNSPECIFIED⟩ actual = false
    ∧ checkStatusPassing ⟨none, some .UNRECOGNIZED⟩ actual = false :=
  ⟨rfl, rfl, rfl⟩

/-- Final result record assembled by `createSyntheticResult`
(`navigation_func.ts`): the parsed broken-links report plus the run's start
time and the aggregation-time end time (timestamps as epoch milliseconds). -/
structure SyntheticResult where
  synthetic_broken_links_result_v1 : BrokenLinksResultV1
  start_time : Nat
  end_time : Nat
deriving Repr

/-- Embedding of `createSyntheticResult` (`link_utils.ts`): parses the
followed links and stamps `end_time` with the clock read at aggregation time
(`new Date().toISOString()`), passed here as the explicit parameter `now`.
The source performs no adjustment of `now` relative to `start_time`. -/
def createSyntheticResult (start_time : Nat) (now : Nat)
    (followed_links : List SyntheticLinkResult) : SyntheticResult :=
  { synthetic_broken_links_result_v1 := parseFollowedLinks followed_links
    start_time := start_time
    end_time := now }

/-- Embedding of `getEndTime` (`link_utils.ts`): read the clock (`now`), and
if its ISO string equals `startTime` (equal milliseconds), advance it by one
millisecond.  In the source this helper is used only by
`getGenericSyntheticResult`, not by `createSyntheticResult`. -/
def getEndTime (startTime : Nat) (now : Nat) : Nat :=
  if now = startTime then now + 1 else now

/-- C8 counterexample: when the aggregation happens within the same
millisecond as the supplied start time, `createSyntheticResult` emits
`end_time` equal to `start_time` — not strictly after, and no minimal-unit
advance happens. -/
theorem createSyntheticResult_equal_times :
    (createSyntheticResult 1000 1000 []).end_time
        = (createSyntheticResult 1000 1000 []).start_time
    ∧ ¬ (createSyntheticResult 1000 1000 []).start_time
        < (createSyntheticResult 1000 1000 []).end_time := by
  exact ⟨rfl, by decide⟩

/-- C8 (amended): `createSyntheticResult` stamps `end_time` with the raw
aggregation-time clock, which can equal `start_time`; the minimal-unit
advance lives only in `getEndTime` (used by `getGenericSyntheticResult`),
which never returns the start time and, whenever the clock has not run
backwards, returns a time strictly after it. -/
theorem createSyntheticResult_end_time (start_time now : Nat)
    (links : List SyntheticLinkResult) :
    (createSyntheticResult start_time now links).end_time = now
    ∧ (createSyntheticResult start_time now links).start_time = start_time
    ∧ getEndTime start_time now ≠ start_time
    ∧ (start_time ≤ now → start_time < getEndTime start_time now) := by
  refine ⟨rfl, rfl, ?_, ?_⟩ <;> simp only [getEndTime] <;> split_ifs <;> omega

/-- Witness for C8's amended statement at concrete clock values. -/
theorem createSyntheticResult_end_time_witness :
    (createSyntheticResult 5 7 []).end_time = 7
    ∧ (createSyntheticResult 5 7 []).start_time = 5
    ∧ getEndTime 5 7 ≠ 5
    ∧ (5 : Nat) < getEndTime 5 7 := by
  have h := createSyntheticResult_end_time 5 7 []
  exact ⟨h.1, h.2.1, h.2.2.1, h.2.2.2 (by norm_num)⟩

/-- An intermediate link record (`LinkIntermediate`, `link_utils.ts`). -/
structure LinkIntermediate where
  target_uri : List Char := []
  anchor_text : List Char := []
  html_element : List Char := []
deriving DecidableEq, Repr

/-- Link ordering enum from `synthetic_response.proto`
(`BrokenLinksResultV1.BrokenLinkCheckerOptions.LinkOrder`), with the extra
`ts-proto` variant for out-of-range wire values. -/
inductive LinkOrder where
  | LINK_ORDER_UNSPECIFIED
  | FIRST_N
  | RANDOM
  | UNRECOGNIZED
deriving DecidableEq, Repr

/-- JavaScript `array.slice(0, e)`: a fresh array of the elements before
index `e`, where a negative `e` counts from the end of the array and an `e`
beyond the length is clamped. -/
def jsSliceZero (xs : List α) (e : Int) : List α :=
  xs.take (if e < 0 then ((xs.length : Int) + e).toNat else e.toNat)

/-- Embedding of `shuffleAndTruncate` (`link_utils.ts`).  When `link_order`
is `RANDOM` the source decorates a copy of `links` with one `Math.random()`
key per element, sorts by the keys and strips them
(`[...links].map((value) => (\x7b value, sort \x7d)).sort(...).map(...)`); the
random draws enter here as the explicit function `keys` from element index to
key.  Any other order keeps the copied array as is.  The result is then
truncated with `slice(0, link_limit - 1)`. -/
def shuffleAndTruncate (keys : Nat → Nat) (links : List LinkIntermediate)
    (link_limit : Int) (link_order : LinkOrder) : List LinkIntermediate :=
  let linksToFollow :=
    match link_order with
    | .RANDOM =>
        ((links.enum.map (fun p => (p.2, keys p.1))).mergeSort
          (fun a b => a.2 ≤ b.2)).map (fun p => p.1)
    | _ => links
  jsSliceZero linksToFollow (link_limit - 1)

/-- C6: for every list of links, every limit L ≥ 1 and every order mode (the
random draws being arbitrary), the selector returns exactly
`min k (L - 1)` links, `k` the number of candidates. -/
theorem shuffleAndTruncate_length (keys : Nat → Nat)
    (links : List LinkIntermediate) (L : Int) (order : LinkOrder)
    (hL : 1 ≤ L) :
    (shuffleAndTruncate keys links L order).length
      = min links.length (L - 1).toNat := by
  have hlen :
      ∀ lf : List LinkIntermediate, (jsSliceZero lf (L - 1)).length
        = min lf.length (L - 1).toNat := by
    intro lf
    simp only [jsSliceZero]
    rw [if_neg (by omega)]
    simp [Nat.min_comm]
  cases order <;>
    simp only [shuffleAndTruncate, hlen] <;>
    rw [List.length_map, List.length_mergeSort, List.length_map,
      List.enum_length]

/-- Witness for C6 at a concrete two-element list and limit 2. -/
theorem shuffleAndTruncate_length_witness :
    (shuffleAndTruncate (fun _ => 0)
        [{ target_uri := ['a'] }, { target_uri := ['b'] }] 2 .FIRST_N).length
      = min 2 ((2 : Int) - 1).toNat :=
  shuffleAndTruncate_length (fun _ => 0)
    [{ target_uri := ['a'] }, { target_uri := ['b'] }] 2 .FIRST_N (by norm_num)

/-- C7: with order `FIRST_N` the selector's output is a take of the input
list — the length-bounded prefix, in the original order (the embedding is a
pure function, so the input list itself is unchanged); for the usual case
`L ≥ 1` it is exactly the first `L - 1` elements. -/
theorem shuffleAndTruncate_first_n (keys : Nat → Nat)
    (links : List LinkIntermediate) (L : Int) :
    (∃ n : Nat, shuffleAndTruncate keys links L .FIRST_N = links.take n)
    ∧ (1 ≤ L →
        shuffleAndTruncate keys links L .FIRST_N = links.take (L - 1).toNat) := by
  constructor
  · exact ⟨_, rfl⟩
  · intro hL
    simp only [shuffleAndTruncate, jsSliceZero]
    rw [if_neg (by omega)]

/-- Witness for C7 at a concrete list and limit. -/
theorem shuffleAndTruncate_first_n_witness :
    (∃ n : Nat, shuffleAndTruncate (fun _ => 3)
        [{ target_uri := ['a'] }, { target_uri := ['b'] }] 2 .FIRST_N
      = [{ target_uri := ['a'] }, { target_uri := ['b'] }].take n)
    ∧ shuffleAndTruncate (fun _ => 3)
        [{ target_uri := ['a'] }, { target_uri := ['b'] }] 2 .FIRST_N
      = [{ target_uri := ['a'] }, { target_uri := ['b'] }].take ((2 : Int) - 1).toNat := by
  have h := shuffleAndTruncate_first_n (fun _ => 3)
    [{ target_uri := ['a'] }, { target_uri := ['b'] }] 2
  exact ⟨h.1, h.2 (by norm_num)⟩

/-- JavaScript whitespace (the class `\s`, which is also what
`String.prototype.trim` removes): space, tab, line terminators, and the
Unicode space separators. -/
def jsIsSpace (c : Char) : Bool :=
  c == ' ' || c == '\t' || c == '\n' || c == '\r'
    || c.toNat == 0x0B || c.toNat == 0x0C
    || c.toNat == 0xA0 || c.toNat == 0x1680
    || (0x2000 ≤ c.toNat && c.toNat ≤ 0x200A)
    || c.toNat == 0x2028 || c.toNat == 0x2029
    || c.toNat == 0x202F || c.toNat == 0x205F
    || c.toNat == 0x3000 || c.toNat == 0xFEFF

/-- The character class of the source's `invalidCharactersRegex`:
carriage return, line feed, `U+007F`–`U+009F`, and `# [ ] * ? : " < > | /`. -/
def invalidChar (c : Char) : Bool :=
  c == '\r' || c == '\n'
    || (0x7F ≤ c.toNat && c.toNat ≤ 0x9F)
    || c == '#' || c == '[' || c == ']' || c == '*' || c == '?'
    || c == ':' || c == '"' || c == '<' || c == '>' || c == '|' || c == '/'

/-- The forbidden leading sequence matched by `wellKnownPrefixRegex`. -/
def wellKnownAcme : List Char := (".well-known/acme-challenge/").toList

/-- The source's `.replace(wellKnownPrefixRegex, '_')`: when the string
starts with the forbidden sequence, that occurrence becomes one
underscore. -/
def replaceWellKnown (s : List Char) : List Char :=
  if wellKnownAcme.isPrefixOf s then '_' :: s.drop wellKnownAcme.length else s

/-- JavaScript `String.prototype.trim`: strip leading and trailing
whitespace. -/
def jsTrim (s : List Char) : List Char :=
  ((s.dropWhile jsIsSpace).reverse.dropWhile jsIsSpace).reverse

/-- The source's `.replace(/\s+/g, '_')`: each maximal run of whitespace
becomes one underscore.  The boolean argument records whether the previous
character belonged to a run already replaced. -/
def collapseWsAux : Bool → List Char → List Char
  | _, [] => []
  | prevSpace, c :: rest =>
    if jsIsSpace c then
      if prevSpace then collapseWsAux true rest
      else '_' :: collapseWsAux true rest
    else c :: collapseWsAux false rest

/-- Entry point of the whitespace collapse. -/
def collapseWs (s : List Char) : List Char :=
  collapseWsAux false s

/-- Embedding of `sanitizeObjectName` (`link_utils.ts`).  `none` models the
`null` and `undefined` inputs; a falsy string (empty) and the literal `'.'`
and `'..'` short-circuit to `'_'`.  Otherwise: replace the forbidden leading
sequence, replace every invalid character with `'_'`, trim, and collapse
whitespace runs to `'_'`. -/
def sanitizeObjectName (input : Option (List Char)) : List Char :=
  match input with
  | none => ['_']
  | some s =>
    if s = [] ∨ s = ['.'] ∨ s = ['.', '.'] then ['_']
    else
      collapseWs (jsTrim ((replaceWellKnown s).map
        (fun c => if invalidChar c then '_' else c)))

/-- The character set the claim about `sanitizeObjectName` forbids in the
output: `/`, the other listed specials, carriage return, newline, and the
control range `U+007F`–`U+009F` removed by the source's regex. -/
def claimDisallowed (c : Char) : Bool :=
  c == '/' || c == '#' || c == '[' || c == ']' || c == '*' || c == '?'
    || c == '"' || c == '<' || c == '>' || c == '|'
    || c == '\r' || c == '\n'
    || (0x7F ≤ c.toNat && c.toNat ≤ 0x9F)

/-- Every character of a collapsed string is an underscore or a character of
the original. -/
theorem mem_collapseWsAux (c : Char) :
    ∀ (s : List Char) (b : Bool), c ∈ collapseWsAux b s → c = '_' ∨ c ∈ s := by
  intro s
  induction s with
  | nil => intro b h; simp [collapseWsAux] at h
  | cons d rest ih =>
    intro b h
    simp only [collapseWsAux] at h
    split_ifs at h with h1 h2
    · rcases ih true h with h3 | h3
      · exact Or.inl h3
      · exact Or.inr (List.mem_cons_of_mem _ h3)
    · rw [List.mem_cons] at h
      rcases h with h3 | h3
      · exact Or.inl h3
      · rcases ih true h3 with h4 | h4
        · exact Or.inl h4
        · exact Or.inr (List.mem_cons_of_mem _ h4)
    · rw [List.mem_cons] at h
      rcases h with h3 | h3
      · exact Or.inr (h3 ▸ List.mem_cons_self _ _)
      · rcases ih false h3 with h4 | h4
        · exact Or.inl h4
        · exact Or.inr (List.mem_cons_of_mem _ h4)

/-- Trimming only removes characters. -/
theorem mem_jsTrim (c : Char) (s : List Char) (h : c ∈ jsTrim s) : c ∈ s := by
  simp only [jsTrim, List.mem_reverse] at h
  have h2 := (List.dropWhile_sublist jsIsSpace).mem h
  rw [List.mem_reverse] at h2
  exact (List.dropWhile_sublist jsIsSpace).mem h2

/-- The claim's forbidden set is contained in the regex's character class. -/
theorem claimDisallowed_invalid (c : Char) (h : claimDisallowed c = true) :
    invalidChar c = true := by
  simp only [claimDisallowed, Bool.or_eq_true, beq_iff_eq, Bool.and_eq_true,
    decide_eq_true_eq] at h
  simp only [invalidChar, Bool.or_eq_true, beq_iff_eq, Bool.and_eq_true,
    decide_eq_true_eq]
  tauto

/-- C10 counterexample: the input `". "` (dot, space) passes the literal
`'.'`/`'..'` check, survives the character replacement untouched, and the
final trim leaves exactly the string `"."`. -/
theorem sanitizeObjectName_dot_space :
    sanitizeObjectName (some ['.', ' ']) = ['.'] := by decide

/-- C10 (amended): the output of `sanitizeObjectName` never contains `/` or
any other character of the regex-removed set (`# [ ] * ? " < > |`, carriage
return, newline, `U+007F`–`U+009F`), and the inputs `null`/`undefined`, the
empty string, and the literal strings `'.'` and `'..'` all map to `'_'`; but
an input whose trimming produces `'.'` or `'..'` (such as `". "`) is
returned as such, so the output is not in general different from `'.'` and
`'..'`. -/
theorem sanitizeObjectName_spec (input : Option (List Char)) :
    (∀ c ∈ sanitizeObjectName input, claimDisallowed c = false)
    ∧ ((input = none ∨ input = some [] ∨ input = some ['.']
          ∨ input = some ['.', '.']) →
        sanitizeObjectName input = ['_']) := by
  constructor
  · intro c hc
    match input with
    | none =>
      simp only [sanitizeObjectName, List.mem_singleton] at hc
      subst hc; decide
    | some s =>
      simp only [sanitizeObjectName] at hc
      split_ifs at hc with h0
      · simp only [List.mem_singleton] at hc
        subst hc; decide
      · rcases mem_collapseWsAux c _ false hc with h1 | h1
        · subst h1; decide
        · have h2 := mem_jsTrim c _ h1
          simp only [List.mem_map] at h2
          obtain ⟨a, _, ha⟩ := h2
          by_cases hia : invalidChar a = true
          · rw [hia] at ha; simp at ha; subst ha; decide
          · simp only [Bool.not_eq_true] at hia
            rw [hia] at ha; simp at ha; subst ha
            cases hcd : claimDisallowed a with
            | false => rfl
            | true => rw [claimDisallowed_invalid a hcd] at hia; cases hia
  · intro h
    rcases h with h | h | h | h <;> subst h <;> decide

/-- Witness for C10's amended statement at the input `".."`. -/
theorem sanitizeObjectName_spec_witness :
    (∀ c ∈ sanitizeObjectName (some ['.', '.']), claimDisallowed c = false)
    ∧ sanitizeObjectName (some ['.', '.']) = ['_'] := by
  have h := sanitizeObjectName_spec (some ['.', '.'])
  exact ⟨h.1, h.2 (Or.inr (Or.inr (Or.inr rfl)))⟩

/-- What one puppeteer `page.goto` can leave in `responseOrError`
(`HTTPResponse | Error | null`); an HTTP response is abstracted by its status
code, an error by its name and message. -/
inductive ResponseOrError where
  | response (status : Int)
  | failure (name : List Char) (message : List Char)
  | null
deriving DecidableEq, Repr

/-- Embedding of `isHTTPResponse` (`link_utils.ts`): the value is non-null
and carries a `status` member — true exactly for the response variant. -/
def isHTTPResponse : ResponseOrError → Bool
  | .response _ => true
  | _ => false

/-- The status read `responseOrError.status()`; only ever consulted under an
`isHTTPResponse` guard in the source, hence the default is arbitrary. -/
def statusOf : ResponseOrError → Int
  | .response s => s
  | _ => 0

/-- The result of one `fetchLink` (`CommonResponseProps`,
`link_utils.ts`). -/
structure CommonResponseProps where
  responseOrError : ResponseOrError := .null
  linkStartTime : Nat := 0
  linkEndTime : Nat := 0
deriving DecidableEq, Repr

/-- The record `navigate` returns (`NavigateResponse`), with one extra
instrumentation field `attemptsPerformed` counting, in the embedding, how
many `fetchLink` calls the loop made (in the source this is
`max_retries + 1 - retriesRemaining`). -/
structure NavigateResponse where
  responseOrError : ResponseOrError
  passed : Bool
  retriesRemaining : Nat
  attemptsPerformed : Nat
  linkStartTime : Nat
  linkEndTime : Nat
deriving DecidableEq, Repr

/-- The pass test of one attempt in `navigate`:
`isHTTPResponse(out.responseOrError) && checkStatusPassing(expected,
out.responseOrError.status())`. -/
def attemptPassed (expected : ResponseStatusCode)
    (out : CommonResponseProps) : Bool :=
  isHTTPResponse out.responseOrError
    && checkStatusPassing expected (statusOf out.responseOrError)

/-- The `while (retriesRemaining > 0 && !passed)` loop of `navigate`
(`navigation_func.ts`): each iteration decrements `retriesRemaining`,
performs the next fetch (the outcome of the `i`-th fetch being
`attempt i`), and recomputes `passed`. -/
def navigateLoop (attempt : Nat → CommonResponseProps)
    (expected : ResponseStatusCode) :
    Nat → Nat → CommonResponseProps → Bool → NavigateResponse
  | 0, i, cur, passed =>
    ⟨cur.responseOrError, passed, 0, i, cur.linkStartTime, cur.linkEndTime⟩
  | r + 1, i, cur, passed =>
    if passed then
      ⟨cur.responseOrError, passed, r + 1, i, cur.linkStartTime, cur.linkEndTime⟩
    else
      navigateLoop attempt expected r (i + 1) (attempt i)
        (attemptPassed expected (attempt i))

/-- Embedding of `navigate` (`navigation_func.ts`): `retriesRemaining`
starts at `max_retries + 1`, `fetch_link_output` starts as the junk empty
record, `passed` starts false. -/
def navigate (attempt : Nat → CommonResponseProps)
    (expected : ResponseStatusCode) (max_retries : Nat) : NavigateResponse :=
  navigateLoop attempt expected (max_retries + 1) 0 {} false

/-- If no attempt in the window passes, the loop drains its fuel and reports
the outcome of the last attempt, having fetched once per unit of fuel. -/
theorem navigateLoop_no_pass (attempt : Nat → CommonResponseProps)
    (expected : ResponseStatusCode) :
    ∀ (r i : Nat) (cur : CommonResponseProps), 1 ≤ r →
    (∀ t, i ≤ t → t < i + r → attemptPassed expected (attempt t) = false) →
    navigateLoop attempt expected r i cur false =
      ⟨(attempt (i + r - 1)).responseOrError, false, 0, i + r,
        (attempt (i + r - 1)).linkStartTime, (attempt (i + r - 1)).linkEndTime⟩ := by
  intro r
  induction r with
  | zero => intro i cur h; omega
  | succ r ih =>
    intro i cur _ hall
    have hi : attemptPassed expected (attempt i) = false :=
      hall i (le_refl i) (by omega)
    simp only [navigateLoop, hi, if_neg Bool.false_ne_true]
    cases r with
    | zero => simp [navigateLoop]
    | succ r' =>
      have h2 := ih (i + 1) (attempt i) (by omega)
        (fun t ht1 ht2 => hall t (by omega) (by omega))
      rw [h2, show i + 1 + (r' + 1) - 1 = i + (r' + 1 + 1) - 1 from by omega,
        show i + 1 + (r' + 1) = i + (r' + 1 + 1) from by omega]

/-- If the `j`-th attempt is the first passing one and fuel reaches it, the
loop stops right there with its outcome. -/
theorem navigateLoop_first_pass (attempt : Nat → CommonResponseProps)
    (expected : ResponseStatusCode) :
    ∀ (r i j : Nat) (cur : CommonResponseProps),
    i ≤ j → j < i + r →
    attemptPassed expected (attempt j) = true →
    (∀ t, i ≤ t → t < j → attemptPassed expected (attempt t) = false) →
    navigateLoop attempt expected r i cur false =
      ⟨(attempt j).responseOrError, true, i + r - (j + 1), j + 1,
        (attempt j).linkStartTime, (attempt j).linkEndTime⟩ := by
  intro r
  induction r with
  | zero => intro i j cur h1 h2; omega
  | succ r ih =>
    intro i j cur h1 h2 hj hbefore
    by_cases hij : j = i
    · subst hij
      simp only [navigateLoop, if_neg Bool.false_ne_true, hj]
      cases r with
      | zero => simp [navigateLoop]
      | succ r' => simp [navigateLoop]; omega
    · have hi : attemptPassed expected (attempt i) = false :=
        hbefore i (le_refl i) (by omega)
      simp only [navigateLoop, hi, if_neg Bool.false_ne_true]
      have h3 := ih (i + 1) j (attempt i) (by omega) (by omega) hj
        (fun t ht1 ht2 => hbefore t (by omega) ht2)
      rw [h3]
      congr 1 <;> omega

/-- The loop performs at most one fetch per unit of fuel. -/
theorem navigateLoop_attempts_le (attempt : Nat → CommonResponseProps)
    (expected : ResponseStatusCode) :
    ∀ (r i : Nat) (cur : CommonResponseProps) (passed : Bool),
    (navigateLoop attempt expected r i cur passed).attemptsPerformed ≤ i + r := by
  intro r
  induction r with
  | zero => intro i cur passed; simp [navigateLoop]
  | succ r ih =>
    intro i cur passed
    simp only [navigateLoop]
    split_ifs
    · simp
    · have := ih (i + 1) (attempt i) (attemptPassed expected (attempt i))
      omega

/-- C2: `navigate` with `max_retries = R` performs at most `R + 1` fetch
attempts; if some attempt in the window `0..R` passes and `j` is the first
such, the loop stops immediately after attempt `j` (having made `j + 1`
fetches, with `R - j` retries unspent) and returns that attempt's outcome
with `passed = true`; and if no attempt in the window passes, the returned
outcome is exactly that of the last attempt performed, attempt `R`, with
`passed = false` and every retry consumed. -/
theorem navigate_retry_spec (attempt : Nat → CommonResponseProps)
    (expected : ResponseStatusCode) (R : Nat) :
    (navigate attempt expected R).attemptsPerformed ≤ R + 1
    ∧ (∀ j, j ≤ R → attemptPassed expected (attempt j) = true →
        (∀ t, t < j → attemptPassed expected (attempt t) = false) →
        navigate attempt expected R =
          ⟨(attempt j).responseOrError, true, R - j, j + 1,
            (attempt j).linkStartTime, (attempt j).linkEndTime⟩)
    ∧ ((∀ t, t ≤ R → attemptPassed expected (attempt t) = false) →
        navigate attempt expected R =
          ⟨(attempt R).responseOrError, false, 0, R + 1,
            (attempt R).linkStartTime, (attempt R).linkEndTime⟩) := by
  refine ⟨?_, ?_, ?_⟩
  · simpa using navigateLoop_attempts_le attempt expected (R + 1) 0 {} false
  · intro j hj hpass hbefore
    have h := navigateLoop_first_pass attempt expected (R + 1) 0 j {}
      (by omega) (by omega) hpass (fun t _ ht2 => hbefore t ht2)
    simpa [navigate] using h
  · intro hall
    have h := navigateLoop_no_pass attempt expected (R + 1) 0 {}
      (by omega) (fun t _ ht2 => hall t (by omega))
    simpa [navigate] using h

/-- Concrete attempt sequence for the C2 witness: attempt 0 times out,
attempt 1 returns 200. -/
def exampleAttempt : Nat → CommonResponseProps
  | 0 => { responseOrError := .failure ['T'] ['t'], linkStartTime := 10, linkEndTime := 20 }
  | _ => { responseOrError := .response 200, linkStartTime := 30, linkEndTime := 40 }

/-- Witness for C2: with two retries allowed and the first pass at attempt 1,
`navigate` stops after two fetches. -/
theorem navigate_retry_spec_witness :
    (navigate exampleAttempt ⟨none, some .STATUS_CLASS_2XX⟩ 2).attemptsPerformed ≤ 3
    ∧ navigate exampleAttempt ⟨none, some .STATUS_CLASS_2XX⟩ 2 =
        ⟨.response 200, true, 1, 2, 30, 40⟩ := by
  have h := navigate_retry_spec exampleAttempt ⟨none, some .STATUS_CLASS_2XX⟩ 2
  refine ⟨h.1, ?_⟩
  have h2 := h.2.1 1 (by norm_num) (by decide)
    (fun t ht => by interval_cases t; decide)
  simpa [exampleAttempt] using h2

/-- The rejection message `checkLinks` (`navigation_func.ts`) throws when an
individual link check raises. -/
def checkErrorMessage (l : LinkIntermediate) : List Char :=
  ("An error occurred while checking ").toList ++ l.target_uri
    ++ (". Please reference server logs for further information.").toList

/-- The sequential loop inside `checkLinks` (`navigation_func.ts`).  `fired i`
is whether the global deadline has fired (`timeLimitReached`, set by the
winning `timeLimitPromise` of the `Promise.race`) when the loop reaches the
iteration boundary of index `i`; `check l` is the outcome of
`checkLink(page, l, ...)` for link `l` — `Except.error` when it throws.  At a
fired boundary the loop stops and the race's continuation returns the results
gathered so far; a throwing check rejects the whole call with the wrapping
message. -/
def checkLinksLoop
    (check : LinkIntermediate → Except (List Char) SyntheticLinkResult)
    (fired : Nat → Bool) :
    List LinkIntermediate → Nat → Except (List Char) (List SyntheticLinkResult)
  | [], _ => .ok []
  | l :: ls, i =>
    if fired i then .ok []
    else
      match check l with
      | .error _ => .error (checkErrorMessage l)
      | .ok r =>
        match checkLinksLoop check fired ls (i + 1) with
        | .error e => .error e
        | .ok rest => .ok (r :: rest)

/-- Embedding of `checkLinks` (`navigation_func.ts`): run the sequential
loop from the first boundary. -/
def checkLinks
    (check : LinkIntermediate → Except (List Char) SyntheticLinkResult)
    (fired : Nat → Bool) (links : List LinkIntermediate) :
    Except (List Char) (List SyntheticLinkResult) :=
  checkLinksLoop check fired links 0

/-- The loop never looks at a check beyond the first fired boundary: two
check functions agreeing up to boundary `k` produce identical runs. -/
theorem checkLinksLoop_agree
    (check check₂ : LinkIntermediate → Except (List Char) SyntheticLinkResult)
    (fired : Nat → Bool) (k : Nat)
    (hmono : ∀ i j, i ≤ j → fired i = true → fired j = true)
    (hk : fired k = true) :
    ∀ (links : List LinkIntermediate) (i : Nat),
    (∀ l ∈ links.take (k - i), check l = check₂ l) →
    checkLinksLoop check fired links i = checkLinksLoop check₂ fired links i := by
  intro links
  induction links with
  | nil => intro i h; rfl
  | cons l ls ih =>
    intro i h
    simp only [checkLinksLoop]
    cases hf : fired i with
    | true => rfl
    | false =>
      have hik : i < k := by
        rcases Nat.lt_or_ge i k with h1 | h1
        · exact h1
        · rw [hmono k i h1 hk] at hf; cases hf
      obtain ⟨n, hn⟩ : ∃ n, k - i = n + 1 := ⟨k - i - 1, by omega⟩
      rw [hn, List.take_succ_cons] at h
      rw [h l (List.mem_cons_self l _)]
      have harg : ∀ x ∈ ls.take (k - (i + 1)), check x = check₂ x := by
        intro x hx
        refine h x (List.mem_cons_of_mem l ?_)
        have hkn : k - (i + 1) = n := by omega
        rw [hkn] at hx
        exact hx
      rw [ih (i + 1) harg]

/-- If every check before boundary `k` succeeds, the loop returns the mapped
results of some prefix not reaching past the first fired boundary. -/
theorem checkLinksLoop_prefix
    (check : LinkIntermediate → Except (List Char) SyntheticLinkResult)
    (fired : Nat → Bool) (k : Nat)
    (f : LinkIntermediate → SyntheticLinkResult)
    (hmono : ∀ i j, i ≤ j → fired i = true → fired j = true)
    (hk : fired k = true) :
    ∀ (links : List LinkIntermediate) (i : Nat),
    (∀ l ∈ links.take (k - i), check l = .ok (f l)) →
    ∃ m, m ≤ k - i ∧
      checkLinksLoop check fired links i = .ok ((links.take m).map f) := by
  intro links
  induction links with
  | nil => intro i h; exact ⟨0, by omega, rfl⟩
  | cons l ls ih =>
    intro i h
    simp only [checkLinksLoop]
    cases hf : fired i with
    | true => exact ⟨0, by omega, rfl⟩
    | false =>
      have hik : i < k := by
        rcases Nat.lt_or_ge i k with h1 | h1
        · exact h1
        · rw [hmono k i h1 hk] at hf; cases hf
      obtain ⟨n, hn⟩ : ∃ n, k - i = n + 1 := ⟨k - i - 1, by omega⟩
      rw [hn, List.take_succ_cons] at h
      rw [h l (List.mem_cons_self l _)]
      have harg : ∀ x ∈ ls.take (k - (i + 1)), check x = .ok (f x) := by
        intro x hx
        refine h x (List.mem_cons_of_mem l ?_)
        have hkn : k - (i + 1) = n := by omega
        rw [hkn] at hx
        exact hx
      obtain ⟨m, hm, heq⟩ := ih (i + 1) harg
      refine ⟨m + 1, by omega, ?_⟩
      simp [heq, List.take_succ_cons]

/-- C1: once the deadline has fired by iteration boundary `k` (the flag is
monotone: once set it stays set), no link check at a boundary at or past `k`
is ever started — the run is insensitive to what any such check would do —
and, provided the checks actually started did not throw, `checkLinks`
resolves without error with exactly the results gathered from a prefix of at
most `k` links. -/
theorem checkLinks_deadline
    (check check₂ : LinkIntermediate → Except (List Char) SyntheticLinkResult)
    (fired : Nat → Bool) (links : List LinkIntermediate) (k : Nat)
    (f : LinkIntermediate → SyntheticLinkResult)
    (hmono : ∀ i j, i ≤ j → fired i = true → fired j = true)
    (hk : fired k = true) :
    ((∀ l ∈ links.take k, check l = check₂ l) →
      checkLinks check fired links = checkLinks check₂ fired links)
    ∧ ((∀ l ∈ links.take k, check l = .ok (f l)) →
      ∃ m, m ≤ k ∧ checkLinks check fired links = .ok ((links.take m).map f)) := by
  constructor
  · intro h
    exact checkLinksLoop_agree check check₂ fired k hmono hk links 0
      (by simpa using h)
  · intro h
    have h2 := checkLinksLoop_prefix check fired k f hmono hk links 0
      (by simpa using h)
    simpa [checkLinks] using h2

/-- The per-link result the C1 witness's check function produces. -/
def exampleResult (l : LinkIntermediate) : SyntheticLinkResult :=
  { link_passed := some true, target_uri := l.target_uri,
    status_code := some 200 }

/-- Witness for C1: two links, a deadline firing at boundary 1; the run
resolves without error with the results of at most one link. -/
theorem checkLinks_deadline_witness :
    ∃ m, m ≤ 1 ∧
      checkLinks (fun l => .ok (exampleResult l)) (fun i => decide (1 ≤ i))
          [{ target_uri := ['a'] }, { target_uri := ['b'] }]
        = .ok (([({ target_uri := ['a'] } : LinkIntermediate),
            { target_uri := ['b'] }].take m).map exampleResult) := by
  have h := checkLinks_deadline (fun l => .ok (exampleResult l))
    (fun l => .ok (exampleResult l)) (fun i => decide (1 ≤ i))
    [{ target_uri := ['a'] }, { target_uri := ['b'] }] 1 exampleResult
    (fun i j hij h1 => by
      simp only [decide_eq_true_eq] at *
      omega)
    (by decide)
  exact h.2 (fun l _ => rfl)

end SyntheticsSdk
